import Mathlib

/-!
Verification development for the Curie frontend client.

The definitions below are a shallow embedding of the repository
TypeScript source: the HTTP wrapper (`src/api/http.ts`), the auth client
(`src/api/auth.ts`), the admin RAG-document client (`src/api/admin.ts`),
the router (`src/app/routes.tsx`), the chat pages (`UserChatMain` /
`AdminUserChatMain`), the chat window scaffold stripper, the URL-bound
chat hook, and the auth state provider (`src/state/auth.tsx`).

Browser / platform primitives that the code calls (`JSON.parse`,
`JSON.stringify`, `Number(...)`, `String.prototype.trim`, regular
expressions) are modelled by executable Lean functions that follow the
ECMAScript behaviour on the inputs relevant here; the few deliberate
approximations (no exotic Unicode whitespace, object-to-number coercion
treated as NaN) are noted at each definition.
-/

/-- Whitespace test modelling the JavaScript `\s` class and `trim()` set
(space, tab, LF, CR, FF, VT; exotic Unicode space characters are not
modelled). -/
def isWS (c : Char) : Bool :=
  c = ' ' || c = '\t' || c = '\n' || c = '\r' || c = '\x0b' || c = '\x0c'

/-- Drop whitespace from both ends of a character list, modelling
`String.prototype.trim`. -/
def jsTrimChars (l : List Char) : List Char :=
  ((l.dropWhile isWS).reverse.dropWhile isWS).reverse

/-- Model of `s.trim()`. -/
def jsTrim (s : String) : String :=
  ⟨jsTrimChars s.data⟩

/-- Decide whether `t` occurs inside `s`, modelling
`String.prototype.includes`. -/
def hasSubstr (s t : List Char) : Bool :=
  t.isPrefixOf s ||
    match s with
    | [] => false
    | _ :: cs => hasSubstr cs t

/-- ASCII letter test (the `[A-Z]` class under the `i` flag). -/
def isAsciiLetter (c : Char) : Bool :=
  ('A' ≤ c && c ≤ 'Z') || ('a' ≤ c && c ≤ 'z')

/-- ASCII digit test. -/
def isDigitCh (c : Char) : Bool :=
  let n := c.toNat
  48 ≤ n && n ≤ 57

/-- Numeric value of an ASCII digit. -/
def digitVal (c : Char) : Nat :=
  c.toNat - 48

/-- Numeric value of a hex digit (used for `\uXXXX` escapes). -/
def hexVal (c : Char) : Option Nat :=
  let n := c.toNat
  if isDigitCh c then some (digitVal c)
  else if 97 ≤ n && n ≤ 102 then some (n - 87)
  else if 65 ≤ n && n ≤ 70 then some (n - 55)
  else none

/-- JSON values, as produced by the platform `JSON.parse`.  Numbers are
modelled as rationals (every finite double is rational). -/
inductive Json where
  | null : Json
  | bool : Bool → Json
  | num : Rat → Json
  | str : String → Json
  | arr : List Json → Json
  | obj : List (String × Json) → Json
deriving Repr

/-- Field lookup on a parsed object where a later duplicate key wins,
matching what `JSON.parse` produces for duplicate keys. -/
def jsGetField : List (String × Json) → String → Option Json
  | [], _ => none
  | (k, v) :: rest, key =>
    match jsGetField rest key with
    | some r => some r
    | none => if k = key then some v else none

/-- Model of the optional-chained property read `x?.k`: `none` plays the
role of `undefined` (non-objects have no own data properties of these
names). -/
def jsGet (j : Json) (k : String) : Option Json :=
  match j with
  | .obj fs => jsGetField fs k
  | _ => none

/-- JavaScript truthiness of a JSON value. -/
def jsTruthy : Json → Bool
  | .null => false
  | .bool b => b
  | .num q => decide (q ≠ 0)
  | .str s => decide (s ≠ "")
  | .arr _ => true
  | .obj _ => true

/-- Truthiness of a possibly-`undefined` value. -/
def jsTruthyOpt : Option Json → Bool
  | none => false
  | some v => jsTruthy v

/-- Decimal rendering of a rational, modelling how JavaScript prints the
numbers that occur here (integral doubles print with no fraction; a
non-integral value is rendered with up to ten fractional digits, enough
for every literal in this code base). -/
def ratToStringFrac : Nat → Rat → String
  | 0, _ => ""
  | n + 1, q =>
    if q = 0 then ""
    else
      let q10 := q * 10
      let d := q10.floor
      toString d ++ ratToStringFrac n (q10 - (d : Rat))

/-- Integer-or-decimal rendering of a rational (see `ratToStringFrac`). -/
def ratToString (q : Rat) : String :=
  if q.den = 1 then toString q.num
  else
    let sign := if q < 0 then "-" else ""
    let a := |q|
    let ip := a.floor
    sign ++ toString ip ++ "." ++ ratToStringFrac 10 (a - (ip : Rat))

/-- JSON whitespace (the four characters `JSON.parse` skips). -/
def skipJsonWS (l : List Char) : List Char :=
  l.dropWhile (fun c => c = ' ' || c = '\t' || c = '\n' || c = '\r')

/-- Parse the body of a JSON string after its opening quote, returning the
decoded characters and the remainder.  Follows `JSON.parse`: raw control
characters are rejected, the standard escapes and `\uXXXX` are decoded
(lone surrogates are not modelled). -/
def pStrChars : List Char → Option (List Char × List Char)
  | [] => none
  | '"' :: rest => some ([], rest)
  | '\\' :: '"' :: rest => (fun p => ('"' :: p.1, p.2)) <$> pStrChars rest
  | '\\' :: '\\' :: rest => (fun p => ('\\' :: p.1, p.2)) <$> pStrChars rest
  | '\\' :: '/' :: rest => (fun p => ('/' :: p.1, p.2)) <$> pStrChars rest
  | '\\' :: 'b' :: rest => (fun p => ('\x08' :: p.1, p.2)) <$> pStrChars rest
  | '\\' :: 'f' :: rest => (fun p => ('\x0c' :: p.1, p.2)) <$> pStrChars rest
  | '\\' :: 'n' :: rest => (fun p => ('\n' :: p.1, p.2)) <$> pStrChars rest
  | '\\' :: 'r' :: rest => (fun p => ('\r' :: p.1, p.2)) <$> pStrChars rest
  | '\\' :: 't' :: rest => (fun p => ('\t' :: p.1, p.2)) <$> pStrChars rest
  | '\\' :: 'u' :: h1 :: h2 :: h3 :: h4 :: rest =>
    match hexVal h1, hexVal h2, hexVal h3, hexVal h4 with
    | some a, some b, some c, some d =>
      (fun p => (Char.ofNat (((a * 16 + b) * 16 + c) * 16 + d) :: p.1, p.2)) <$> pStrChars rest
    | _, _, _, _ => none
  | '\\' :: _ => none
  | c :: rest => if c.toNat < 32 then none else (fun p => (c :: p.1, p.2)) <$> pStrChars rest

/-- Fold decimal digits into a natural number. -/
def digitsToNat (l : List Char) : Nat :=
  l.foldl (fun a c => a * 10 + digitVal c) 0

/-- Parse the fractional part of a JSON number (empty when there is no
decimal point; a point must be followed by at least one digit). -/
def pFrac : List Char → Option (List Char × List Char)
  | '.' :: r =>
    match r.span isDigitCh with
    | ([], _) => none
    | (fs, r2) => some (fs, r2)
  | cs => some ([], cs)

/-- Parse the digits of an exponent after `e`/`E`. -/
def pExpTail (r : List Char) : Option (Int × List Char) :=
  let (sgn, r1) : Int × List Char :=
    match r with
    | '+' :: t => (1, t)
    | '-' :: t => (-1, t)
    | _ => (1, r)
  match r1.span isDigitCh with
  | ([], _) => none
  | (ds, r2) => some (sgn * (digitsToNat ds : Int), r2)

/-- Parse an optional exponent part of a JSON number. -/
def pExp : List Char → Option (Int × List Char)
  | 'e' :: r => pExpTail r
  | 'E' :: r => pExpTail r
  | cs => some (0, cs)

/-- Parse a JSON number (sign, integer part without leading zeros,
optional fraction, optional exponent) into a rational. -/
def pNum (cs : List Char) : Option (Rat × List Char) :=
  let (neg, cs1) : Bool × List Char :=
    match cs with
    | '-' :: r => (true, r)
    | _ => (false, cs)
  match cs1.span isDigitCh with
  | ([], _) => none
  | (ds, cs2) =>
    if 1 < ds.length ∧ ds.head? = some '0' then none
    else
      match pFrac cs2 with
      | none => none
      | some (fs, cs3) =>
        match pExp cs3 with
        | none => none
        | some (e, cs4) =>
          let mant : Rat := (digitsToNat ds : Rat) + (digitsToNat fs : Rat) / ((10 : Rat) ^ fs.length)
          let scaled : Rat := if 0 ≤ e then mant * (10 : Rat) ^ e.toNat else mant / ((10 : Rat) ^ (-e).toNat)
          some (if neg then -scaled else scaled, cs4)

/-- Modes of the recursive JSON parser: a value, the tail of an array, or
the tail of an object. -/
inductive PMode where
  | val : PMode
  | arrTail (acc : List Json) : PMode
  | objTail (acc : List (String × Json)) : PMode

/-- One step of the JSON parser; all recursion goes through `rec`, so the
fuelled driver `pRun` below reduces definitionally. -/
def pStep (rec : PMode → List Char → Option (Json × List Char)) :
    PMode → List Char → Option (Json × List Char) := fun m cs =>
  match m with
  | .val =>
    match skipJsonWS cs with
    | 'n' :: 'u' :: 'l' :: 'l' :: rest => some (.null, rest)
    | 't' :: 'r' :: 'u' :: 'e' :: rest => some (.bool true, rest)
    | 'f' :: 'a' :: 'l' :: 's' :: 'e' :: rest => some (.bool false, rest)
    | '"' :: rest => (pStrChars rest).map (fun p => (.str ⟨p.1⟩, p.2))
    | '[' :: rest =>
      match skipJsonWS rest with
      | ']' :: rest2 => some (.arr [], rest2)
      | rest2 => rec (.arrTail []) rest2
    | '\x7b' :: rest =>
      match skipJsonWS rest with
      | '\x7d' :: rest2 => some (.obj [], rest2)
      | rest2 => rec (.objTail []) rest2
    | rest => (pNum rest).map (fun p => (.num p.1, p.2))
  | .arrTail acc =>
    match rec .val cs with
    | none => none
    | some (v, r) =>
      match skipJsonWS r with
      | ',' :: r2 => rec (.arrTail (acc ++ [v])) r2
      | ']' :: r2 => some (.arr (acc ++ [v]), r2)
      | _ => none
  | .objTail acc =>
    match skipJsonWS cs with
    | '"' :: r =>
      match pStrChars r with
      | none => none
      | some (kcs, r2) =>
        match skipJsonWS r2 with
        | ':' :: r3 =>
          match rec .val r3 with
          | none => none
          | some (v, r4) =>
            match skipJsonWS r4 with
            | ',' :: r5 => rec (.objTail (acc ++ [(⟨kcs⟩, v)])) r5
            | '\x7d' :: r5 => some (.obj (acc ++ [(⟨kcs⟩, v)]), r5)
            | _ => none
        | _ => none
    | _ => none

/-- Fuelled JSON parser driver. -/
def pRun : Nat → PMode → List Char → Option (Json × List Char)
  | 0, _, _ => none
  | n + 1, m, cs => pStep (pRun n) m cs

/-- Model of `JSON.parse`: parse one value and require only whitespace to
remain.  The fuel is generous for the input length, so every input the
grammar accepts is parsed. -/
def jsonParse (s : String) : Option Json :=
  match pRun (4 * s.length + 16) .val s.data with
  | some (v, rest) => if skipJsonWS rest = [] then some v else none
  | none => none

/-- Escape one character for `JSON.stringify` output. -/
def escapeJsonChar (c : Char) : String :=
  if c = '"' then "\\\""
  else if c = '\\' then "\\\\"
  else if c = '\n' then "\\n"
  else if c = '\r' then "\\r"
  else if c = '\t' then "\\t"
  else if c.toNat < 32 then "\\u00" ++ String.singleton (Char.ofNat (c.toNat / 16 + '0'.toNat)) ++ String.singleton (Char.ofNat (c.toNat % 16 + (if c.toNat % 16 < 10 then '0'.toNat else 'a'.toNat - 10)))
  else String.singleton c

mutual

/-- Model of `JSON.stringify` on parsed values. -/
def jsonStringify : Json → String
  | .null => "null"
  | .bool b => if b then "true" else "false"
  | .num q => ratToString q
  | .str s => "\"" ++ String.join (s.data.map escapeJsonChar) ++ "\""
  | .arr xs => "[" ++ jsonStringifyList xs ++ "]"
  | .obj fs => "\x7b" ++ jsonStringifyFields fs ++ "\x7d"

/-- Comma-separated stringification of array elements. -/
def jsonStringifyList : List Json → String
  | [] => ""
  | [x] => jsonStringify x
  | x :: xs => jsonStringify x ++ "," ++ jsonStringifyList xs

/-- Comma-separated stringification of object fields. -/
def jsonStringifyFields : List (String × Json) → String
  | [] => ""
  | [(k, v)] => "\"" ++ String.join (k.data.map escapeJsonChar) ++ "\":" ++ jsonStringify v
  | (k, v) :: fs =>
    "\"" ++ String.join (k.data.map escapeJsonChar) ++ "\":" ++ jsonStringify v ++ "," ++ jsonStringifyFields fs

end

mutual

/-- Model of JavaScript template-literal conversion `String(v)` for JSON
values (arrays join their elements with commas, objects print as
`[object Object]`). -/
def jsToString : Json → String
  | .null => "null"
  | .bool b => if b then "true" else "false"
  | .num q => ratToString q
  | .str s => s
  | .arr xs => jsArrJoin xs
  | .obj _ => "[object Object]"

/-- Model of `Array.prototype.join(",")` where `null`/`undefined`
elements become empty strings. -/
def jsArrJoin : List Json → String
  | [] => ""
  | [x] =>
    match x with
    | .null => ""
    | v => jsToString v
  | x :: xs =>
    (match x with
     | .null => ""
     | v => jsToString v) ++ "," ++ jsArrJoin xs

end

/-- Conversion applied by `Array.prototype.join` to each mapped entry
(`null`/`undefined` become the empty string). -/
def jsJoinConv : Json → String
  | .null => ""
  | v => jsToString v

/-- Embeds `Array.isArray(d?.loc) ? d.loc.slice(-1)[0] : d?.loc` from
`ensureOk` (`src/api/http.ts`); `Json.null` stands for `undefined`. -/
def detailLoc (d : Json) : Json :=
  match jsGet d "loc" with
  | some (.arr xs) =>
    match xs.getLast? with
    | some v => v
    | none => .null
  | some v => v
  | none => .null

/-- Embeds the fallback `d?.message || JSON.stringify(d)` of the detail
message chain in `ensureOk`. -/
def detailMsgFallback (d : Json) : Json :=
  match jsGet d "message" with
  | some m2 => if jsTruthy m2 then m2 else .str (jsonStringify d)
  | none => .str (jsonStringify d)

/-- Embeds `d?.msg || d?.message || JSON.stringify(d)` from `ensureOk`. -/
def detailMsgVal (d : Json) : Json :=
  match jsGet d "msg" with
  | some m => if jsTruthy m then m else detailMsgFallback d
  | none => detailMsgFallback d

/-- Embeds the per-entry mapper of `ensureOk`:
`loc ? `${loc}: ${m}` : m`, as it appears to the subsequent
`.join("; ")`. -/
def detailEntryStr (d : Json) : String :=
  let locv := detailLoc d
  let mv := detailMsgVal d
  if jsTruthy locv then jsToString locv ++ ": " ++ jsToString mv
  else jsJoinConv mv

/-- Embeds the raw-text fallback of `ensureOk`: keep the initial
`"HTTP <status>"` message only when the body text is empty. -/
def rawOrDefault (txt : String) (status : Nat) : String :=
  if txt = "" then "HTTP " ++ toString status else txt

/-- Embeds the error-message computation of `ensureOk`
(`src/api/http.ts` lines 108-138): parse the body as JSON; an array
`detail` is mapped per entry and joined with `"; "`; a string `detail`
or string `error` is used directly; otherwise the raw body text, or
`"HTTP <status>"` when the body is empty. -/
def ensureOkMessage (status : Nat) (txt : String) : String :=
  match jsonParse txt with
  | none => rawOrDefault txt status
  | some j =>
    match jsGet j "detail" with
    | some (.arr ds) => String.intercalate "; " (ds.map detailEntryStr)
    | some (.str s) => s
    | _ =>
      match jsGet j "error" with
      | some (.str e) => e
      | _ => rawOrDefault txt status

/-- Embeds `res.ok` (status in the 2xx range). -/
def resOk (status : Nat) : Bool :=
  200 ≤ status && status < 300

/-- Embeds `ensureOk(url, method, res)`: succeed on 2xx, otherwise raise
`"<METHOD> <url>: <message>"` with the message computed by
`ensureOkMessage`. -/
def ensureOk (method url : String) (status : Nat) (txt : String) : Except String Unit :=
  if resOk status then .ok ()
  else .error (method ++ " " ++ url ++ ": " ++ ensureOkMessage status txt)

/-- C1: for every non-2xx response the HTTP wrapper raises an error whose
message is `"<METHOD> <url>: "` followed by: for a JSON body with an
array `detail`, the `"; "`-join of `"<last loc element>: <msg>"` per
entry (just `<msg>` when there is no `loc`); for a string `detail`, that
string; else for a string `error`, that string; else the raw body text;
the raw body text when JSON parsing fails; and `"HTTP <status>"` for an
empty body.  In particular the FastAPI-style body
`{"detail":[{"loc":["body","email"],"msg":"invalid"}]}` yields exactly
`"email: invalid"`. -/
theorem ensureOk_error_message_spec :
    (∀ method url status txt, resOk status = false →
      ensureOk method url status txt =
        .error (method ++ " " ++ url ++ ": " ++ ensureOkMessage status txt)) ∧
    (∀ status txt j ds, jsonParse txt = some j → jsGet j "detail" = some (.arr ds) →
      ensureOkMessage status txt = String.intercalate "; " (ds.map detailEntryStr)) ∧
    (∀ d m, jsGet d "msg" = some (.str m) → m ≠ "" → jsGet d "loc" = none →
      detailEntryStr d = m) ∧
    (∀ d m ls l, jsGet d "msg" = some (.str m) → m ≠ "" →
      jsGet d "loc" = some (.arr ls) → ls.getLast? = some (.str l) → l ≠ "" →
      detailEntryStr d = l ++ ": " ++ m) ∧
    (∀ status txt j s, jsonParse txt = some j → jsGet j "detail" = some (.str s) →
      ensureOkMessage status txt = s) ∧
    (∀ status txt j e, jsonParse txt = some j →
      (∀ ds, jsGet j "detail" ≠ some (.arr ds)) →
      (∀ s, jsGet j "detail" ≠ some (.str s)) →
      jsGet j "error" = some (.str e) →
      ensureOkMessage status txt = e) ∧
    (∀ status txt, jsonParse txt = none → txt ≠ "" → ensureOkMessage status txt = txt) ∧
    (∀ status, ensureOkMessage status "" = "HTTP " ++ toString status) ∧
    ensureOkMessage 422 "\x7b\"detail\":[\x7b\"loc\":[\"body\",\"email\"],\"msg\":\"invalid\"\x7d]\x7d"
      = "email: invalid" := by
  refine ⟨?_, ?_, ?_, ?_, ?_, ?_, ?_, ?_, ?_⟩
  · intro method url status txt h
    simp [ensureOk, h]
  · intro status txt j ds hp hd
    simp [ensureOkMessage, hp, hd]
  · intro d m hmsg hm hloc
    simp [detailEntryStr, detailLoc, detailMsgVal, hmsg, hloc, jsTruthy, jsJoinConv, jsToString, hm]
  · intro d m ls l hmsg hm hloc hlast hl
    simp [detailEntryStr, detailLoc, detailMsgVal, hmsg, hloc, hlast, jsTruthy, jsToString, hm, hl]
  · intro status txt j s hp hd
    simp [ensureOkMessage, hp, hd]
  · intro status txt j e hp hdarr hdstr he
    unfold ensureOkMessage
    rw [hp]
    cases hdet : jsGet j "detail" with
    | none => simp [he]
    | some v =>
      cases v with
      | str s => exact absurd hdet (hdstr s)
      | arr ds => exact absurd hdet (hdarr ds)
      | null => simp [he]
      | bool b => simp [he]
      | num q => simp [he]
      | obj fs => simp [he]
  · intro status txt hp ht
    simp [ensureOkMessage, hp, rawOrDefault, ht]
  · intro status
    simp [ensureOkMessage, jsonParse, rawOrDefault]
    rfl
  · decide

/-- Witness instantiating `ensureOk_error_message_spec` at concrete
responses. -/
theorem ensureOk_error_message_spec_witness :
    ensureOk "POST" "/auth/login" 401 "\x7b\"detail\":\"Unauthorized\"\x7d" =
      .error ("POST" ++ " " ++ "/auth/login" ++ ": " ++
        ensureOkMessage 401 "\x7b\"detail\":\"Unauthorized\"\x7d") ∧
    ensureOkMessage 401 "\x7b\"detail\":\"Unauthorized\"\x7d" = "Unauthorized" ∧
    detailEntryStr (Json.obj [("loc", Json.arr [Json.str "body", Json.str "email"]), ("msg", Json.str "invalid")])
      = "email" ++ ": " ++ "invalid" ∧
    detailEntryStr (Json.obj [("msg", Json.str "boom")]) = "boom" ∧
    ensureOkMessage 500 "oops, not json" = "oops, not json" := by
  refine ⟨?_, ?_, ?_, ?_, ?_⟩
  · exact ensureOk_error_message_spec.1 "POST" "/auth/login" 401 _ (by decide)
  · exact ensureOk_error_message_spec.2.2.2.2.1 401 _ (Json.obj [("detail", Json.str "Unauthorized")])
      "Unauthorized" (by rfl) (by rfl)
  · exact ensureOk_error_message_spec.2.2.2.1 _ "invalid" [Json.str "body", Json.str "email"] "email"
      (by rfl) (by decide) (by rfl) (by rfl) (by decide)
  · exact ensureOk_error_message_spec.2.2.1 _ "boom" (by rfl) (by decide) (by rfl)
  · exact ensureOk_error_message_spec.2.2.2.2.2.2.1 500 _ (by rfl) (by decide)

/-- Lower-case an ASCII letter (for the case-insensitive `Bearer` match). -/
def charLower (c : Char) : Char :=
  if 'A' ≤ c && c ≤ 'Z' then Char.ofNat (c.toNat + 32) else c

/-- Embeds `stripBearer` (`src/api/http.ts`): a falsy value becomes `""`,
otherwise a leading case-insensitive `Bearer` followed by whitespace is
removed (`replace(/^Bearer\s+/i, "")`). -/
def stripBearer (s : String) : String :=
  if s = "" then ""
  else
    match s.data with
    | b :: e1 :: a :: r1 :: e2 :: r2 :: rest =>
      if charLower b = 'b' && charLower e1 = 'e' && charLower a = 'a' &&
         charLower r1 = 'r' && charLower e2 = 'e' && charLower r2 = 'r' then
        match rest with
        | c :: _ => if isWS c then ⟨rest.dropWhile isWS⟩ else s
        | [] => s
      else s
    | _ => s

/-- Client-visible storage read by `authHeaders` / written by
`tryRefresh`: the durable `access_token`, and the `access_token`,
`Authorization` and `csrf_token` cookies (`none` models an absent
cookie, for which `getCookie` returns `""`). -/
structure ClientStorage where
  lsToken : Option String
  cookieAccessToken : Option String
  cookieAuthorization : Option String
  cookieCsrf : Option String
deriving Repr, DecidableEq

/-- Embeds `getCookie`: the value of the cookie, or `""` when absent. -/
def getCookieVal : Option String → String
  | none => ""
  | some v => v

/-- Embeds `authHeaders(json)` (`src/api/http.ts`): Bearer token from
durable storage with cookie fallback, optional `Accept`, and the CSRF
header when the `csrf_token` cookie is set. -/
def authHeaders (st : ClientStorage) (json : Bool) : List (String × String) :=
  let ls := match st.lsToken with
    | some v => v
    | none => ""
  let c1 := getCookieVal st.cookieAccessToken
  let cookieToken := if c1 ≠ "" then c1 else stripBearer (getCookieVal st.cookieAuthorization)
  let t := if ls ≠ "" then ls else cookieToken
  (if t ≠ "" then [("Authorization", "Bearer " ++ t)] else []) ++
    (if json then [("Accept", "application/json")] else []) ++
    (let csrf := getCookieVal st.cookieCsrf
     if csrf ≠ "" then [("X-CSRF-Token", csrf)] else [])

/-- First-match lookup in a header record. -/
def headerLookup (hs : List (String × String)) (k : String) : Option String :=
  (hs.find? (fun p => p.1 = k)).map (fun p => p.2)

/-- Embeds `hasJson(h)`: `true` for absent headers, else whether the
content type mentions `application/json`. -/
def hasJson (h : Option (List (String × String))) : Bool :=
  match h with
  | none => true
  | some hs =>
    let ct := match headerLookup hs "Content-Type" with
      | some v => if v ≠ "" then some v else headerLookup hs "content-type"
      | none => headerLookup hs "content-type"
    match ct with
    | some v => if v = "" then false else hasSubstr v.data "application/json".data
    | none => false

/-- Embeds the object spread `{ ...init.headers, ...extra }`: keys of
`extra` override those of `base`. -/
def mergeHeaders (base extra : List (String × String)) : List (String × String) :=
  base.filter (fun p => extra.all (fun q => q.1 ≠ p.1)) ++ extra

/-- An HTTP response as seen by the wrapper: status and body text. -/
structure HttpResponse where
  status : Nat
  body : String
deriving Repr, DecidableEq

/-- Embeds `tryRefresh` (`src/api/http.ts` lines 150-172): POST the
refresh endpoint (`resp`; `none` models a thrown fetch or JSON error),
require a 2xx status and a body with a truthy `access_token` and a
numeric `expires_in`; on success persist the new token (the broadcast
`auth-refreshed` event carries no further state here).  Returns the
success flag and the updated storage. -/
def tryRefresh (st : ClientStorage) (resp : Option HttpResponse) : Bool × ClientStorage :=
  match resp with
  | none => (false, st)
  | some r =>
    if resOk r.status = false then (false, st)
    else
      match jsonParse r.body with
      | none => (false, st)
      | some d =>
        match jsGet d "access_token", jsGet d "expires_in" with
        | some tok, some (.num _) =>
          if jsTruthy tok then (true, { st with lsToken := some (jsToString tok) })
          else (false, st)
        | _, _ => (false, st)

/-- Observable actions of one `doFetch` call: HTTP requests to the
target URL (with the headers used) and calls to the token refresh. -/
inductive FetchEvent where
  | request (headers : List (String × String)) : FetchEvent
  | refreshCall : FetchEvent
deriving Repr, DecidableEq

/-- Environment of one `doFetch` call: the storage at request time, the
first response (`none` models a rejected fetch), the underlying network
error message, the refresh response, and the response to the retried
request. -/
structure FetchEnv where
  st : ClientStorage
  first : Option HttpResponse
  netErrMsg : String
  refreshResp : Option HttpResponse
  second : Option HttpResponse

/-- Embeds `doFetch` (`src/api/http.ts` lines 56-80).  The `_retry`
parameter is `false` for every call the module makes and the retry path
does not recurse, so `!_retry` holds at entry.  On a 401, one refresh is
attempted; on refresh success the request is re-issued once with
`{ ...init.headers, ...authHeaders(hasJson(init.headers)) }`; on refresh
failure control falls through to `ensureOk` on the original response.
The returned response stands for `jsonMaybe(res)`. -/
def doFetch (env : FetchEnv) (method url : String) (initHeaders : List (String × String)) :
    List FetchEvent × Except String HttpResponse :=
  match env.first with
  | none =>
    ([.request initHeaders],
      .error (method ++ " " ++ url ++ ": " ++
        (if env.netErrMsg ≠ "" then env.netErrMsg
         else "Network error (is the backend running / CORS ok?)")))
  | some res =>
    if res.status = 401 then
      match tryRefresh env.st env.refreshResp with
      | (true, st2) =>
        let retryHeaders := mergeHeaders initHeaders (authHeaders st2 (hasJson (some initHeaders)))
        (match env.second with
         | none =>
           ([.request initHeaders, .refreshCall, .request retryHeaders], .error "fetch rejected")
         | some res2 =>
           ([.request initHeaders, .refreshCall, .request retryHeaders],
            match ensureOk method url res2.status res2.body with
            | .error e => .error e
            | .ok _ => .ok res2))
      | (false, _) =>
        ([.request initHeaders, .refreshCall],
         match ensureOk method url res.status res.body with
         | .error e => .error e
         | .ok _ => .ok res)
    else
      ([.request initHeaders],
       match ensureOk method url res.status res.body with
       | .error e => .error e
       | .ok _ => .ok res)

/-- Number of refresh attempts in a `doFetch` trace. -/
def countRefresh (tr : List FetchEvent) : Nat :=
  tr.countP (fun e => match e with
    | .refreshCall => true
    | _ => false)

/-- Number of requests issued to the target URL in a `doFetch` trace. -/
def countRequests (tr : List FetchEvent) : Nat :=
  tr.countP (fun e => match e with
    | .request _ => true
    | _ => false)

/-- C2: for every request through the wrapper, a 401 first response
triggers at most one refresh attempt; on refresh success the request is
re-issued exactly once, with the initial headers overridden by freshly
computed auth headers from the refreshed storage; on refresh failure,
on a non-2xx retried response, and on any other non-2xx first response
the wrapper raises the request-failed error, and it never refreshes or
retries twice for the same request. -/
theorem doFetch_refresh_once_spec :
    (∀ env method url h, countRefresh (doFetch env method url h).1 ≤ 1) ∧
    (∀ env method url h, countRequests (doFetch env method url h).1 ≤ 2) ∧
    (∀ env method url h res st2, env.first = some res → res.status = 401 →
      tryRefresh env.st env.refreshResp = (true, st2) →
      (doFetch env method url h).1 =
        [.request h, .refreshCall,
         .request (mergeHeaders h (authHeaders st2 (hasJson (some h))))]) ∧
    (∀ env method url h res, env.first = some res → res.status = 401 →
      (tryRefresh env.st env.refreshResp).1 = false →
      (doFetch env method url h).1 = [.request h, .refreshCall] ∧
      (doFetch env method url h).2 =
        .error (method ++ " " ++ url ++ ": " ++ ensureOkMessage res.status res.body)) ∧
    (∀ env method url h res res2 st2, env.first = some res → res.status = 401 →
      tryRefresh env.st env.refreshResp = (true, st2) → env.second = some res2 →
      resOk res2.status = false →
      (doFetch env method url h).2 =
        .error (method ++ " " ++ url ++ ": " ++ ensureOkMessage res2.status res2.body)) ∧
    (∀ env method url h res res2 st2, env.first = some res → res.status = 401 →
      tryRefresh env.st env.refreshResp = (true, st2) → env.second = some res2 →
      resOk res2.status = true →
      (doFetch env method url h).2 = .ok res2) ∧
    (∀ env method url h res, env.first = some res → res.status ≠ 401 →
      resOk res.status = false →
      (doFetch env method url h).1 = [.request h] ∧
      (doFetch env method url h).2 =
        .error (method ++ " " ++ url ++ ": " ++ ensureOkMessage res.status res.body)) := by
  refine ⟨?_, ?_, ?_, ?_, ?_, ?_, ?_⟩
  · intro env method url h
    unfold doFetch
    cases henv : env.first with
    | none => simp [countRefresh]
    | some res =>
      by_cases h401 : res.status = 401
      · simp only [h401, if_pos]
        rcases htr : tryRefresh env.st env.refreshResp with ⟨b, st2⟩
        cases b
        · simp [countRefresh]
        · cases hsec : env.second <;> simp [countRefresh]
      · simp [h401, countRefresh]
  · intro env method url h
    unfold doFetch
    cases henv : env.first with
    | none => simp [countRequests]
    | some res =>
      by_cases h401 : res.status = 401
      · simp only [h401, if_pos]
        rcases htr : tryRefresh env.st env.refreshResp with ⟨b, st2⟩
        cases b
        · simp [countRequests]
        · cases hsec : env.second <;> simp [countRequests]
      · simp [h401, countRequests]
  · intro env method url h res st2 henv h401 htr
    unfold doFetch
    simp only [henv, h401, htr]
    cases hsec : env.second <;> simp
  · intro env method url h res henv h401 htr
    unfold doFetch
    rcases htr2 : tryRefresh env.st env.refreshResp with ⟨b, st2⟩
    rw [htr2] at htr
    simp at htr
    subst htr
    have hok : resOk 401 = false := by decide
    simp only [henv, h401, htr2, ensureOk, hok]
    constructor
    · simp
    · simp
  · intro env method url h res res2 st2 henv h401 htr hsec hok
    unfold doFetch
    simp only [henv, h401, htr, hsec, ensureOk, hok]
    simp
  · intro env method url h res res2 st2 henv h401 htr hsec hok
    unfold doFetch
    simp only [henv, h401, htr, hsec, ensureOk, hok]
    simp
  · intro env method url h res henv h401 hok
    unfold doFetch
    simp only [henv, h401, ensureOk, hok]
    simp [h401]

/-- Witness instantiating `doFetch_refresh_once_spec`: a 401 whose
refresh succeeds and whose retry returns 200, and a plain 500. -/
theorem doFetch_refresh_once_spec_witness :
    (doFetch ⟨⟨some "tok0", none, none, none⟩, some ⟨401, ""⟩, "",
        some ⟨200, "\x7b\"access_token\":\"tok1\",\"expires_in\":3600\x7d"⟩,
        some ⟨200, "\x7b\x7d"⟩⟩ "GET" "/chat/sessions" [("Accept", "application/json")]).1 =
      [.request [("Accept", "application/json")], .refreshCall,
       .request (mergeHeaders [("Accept", "application/json")]
         (authHeaders ⟨some "tok1", none, none, none⟩
           (hasJson (some [("Accept", "application/json")]))))] ∧
    (doFetch ⟨⟨some "tok0", none, none, none⟩, some ⟨401, ""⟩, "",
        some ⟨200, "\x7b\"access_token\":\"tok1\",\"expires_in\":3600\x7d"⟩,
        some ⟨200, "\x7b\x7d"⟩⟩ "GET" "/chat/sessions" [("Accept", "application/json")]).2 =
      .ok ⟨200, "\x7b\x7d"⟩ ∧
    (doFetch ⟨⟨some "tok0", none, none, none⟩, some ⟨500, "boom"⟩, "", none, none⟩
        "GET" "/x" []).2 =
      .error ("GET" ++ " " ++ "/x" ++ ": " ++ ensureOkMessage 500 "boom") := by
  refine ⟨?_, ?_, ?_⟩
  · exact doFetch_refresh_once_spec.2.2.1 _ "GET" "/chat/sessions" _ ⟨401, ""⟩
      ⟨some "tok1", none, none, none⟩ rfl rfl (by decide)
  · exact doFetch_refresh_once_spec.2.2.2.2.2.1 _ "GET" "/chat/sessions" _ ⟨401, ""⟩
      ⟨200, "\x7b\x7d"⟩ ⟨some "tok1", none, none, none⟩ rfl rfl (by decide) rfl (by decide)
  · exact (doFetch_refresh_once_spec.2.2.2.2.2.2 _ "GET" "/x" _ ⟨500, "boom"⟩ rfl
      (by decide) (by decide)).2

/-- Model of the nullish-coalescing step `a ?? b`: a present `null`
behaves like an absent value. -/
def nnJson : Option Json → Option Json
  | some .null => none
  | x => x

/-- Embeds the token-candidate chain of `login` (`src/api/auth.ts`):
`data?.access_token ?? data?.access ?? data?.token ?? data?.accessToken
?? data?.id_token ?? (typeof data === "string" ? data : null)`. -/
def tokenCandidate (data : Json) : Option Json :=
  match nnJson (jsGet data "access_token") with
  | some v => some v
  | none =>
    match nnJson (jsGet data "access") with
    | some v => some v
    | none =>
      match nnJson (jsGet data "token") with
      | some v => some v
      | none =>
        match nnJson (jsGet data "accessToken") with
        | some v => some v
        | none =>
          match nnJson (jsGet data "id_token") with
          | some v => some v
          | none =>
            match data with
            | .str s => some (.str s)
            | _ => none

/-- Ten to an integer power, as a rational. -/
def powTen (e : Int) : Rat :=
  if 0 ≤ e then (10 : Rat) ^ e.toNat else 1 / (10 : Rat) ^ (-e).toNat

/-- Model of `Number(string)`: trim, empty means `0`, else a full
decimal literal (optional sign, digits with optional fraction or a bare
fraction, optional exponent); anything else is NaN (`none`).  Hex,
octal, binary and `Infinity` literals are not modelled (they never
yield a finite expiry either, except the hex forms no backend emits). -/
def jsStringToNumber (s : String) : Option Rat :=
  let t := jsTrimChars s.data
  if t = [] then some 0
  else
    let (sgn, t1) : Rat × List Char :=
      match t with
      | '+' :: r => (1, r)
      | '-' :: r => (-1, r)
      | _ => (1, t)
    match t1.span isDigitCh with
    | ([], rest) =>
      match rest with
      | '.' :: r2 =>
        match r2.span isDigitCh with
        | ([], _) => none
        | (fs, r3) =>
          match pExp r3 with
          | some (e, []) =>
            some (sgn * ((digitsToNat fs : Rat) / (10 : Rat) ^ fs.length) * powTen e)
          | _ => none
      | _ => none
    | (ds, rest) =>
      match rest with
      | '.' :: r2 =>
        let (fs, r3) := r2.span isDigitCh
        match pExp r3 with
        | some (e, []) =>
          some (sgn * ((digitsToNat ds : Rat) + (digitsToNat fs : Rat) / (10 : Rat) ^ fs.length) * powTen e)
        | _ => none
      | _ =>
        match pExp rest with
        | some (e, []) => some (sgn * (digitsToNat ds : Rat) * powTen e)
        | _ => none

/-- Model of `Number(v)` on JSON values (`none` = NaN; the object and
array ToPrimitive coercions are not modelled and count as NaN). -/
def jsNumber : Json → Option Rat
  | .num q => some q
  | .null => some 0
  | .bool b => some (if b then 1 else 0)
  | .str s => jsStringToNumber s
  | .arr _ => none
  | .obj _ => none

/-- Embeds `toNumber(n, fallback)` (`src/api/auth.ts`): `Number(n)` when
finite, else the fallback. -/
def toNumber (v : Option Json) (fallback : Rat) : Rat :=
  match v with
  | none => fallback
  | some j =>
    match jsNumber j with
    | some q => q
    | none => fallback

/-- Embeds the expiry chain of `login`:
`data?.expires_in ?? data?.expiresIn ?? data?.expires`.  Only the two
non-terminal operands are subject to `??`: the final `data?.expires` is
returned as-is, so an explicit `null` there flows on to `Number(null)`
(which is `0`), it is not treated as absent. -/
def expiryCandidate (data : Json) : Option Json :=
  match nnJson (jsGet data "expires_in") with
  | some v => some v
  | none =>
    match nnJson (jsGet data "expiresIn") with
    | some v => some v
    | none => jsGet data "expires"

/-- The normalized login result (`TokenResponse` in `src/api/types.ts`). -/
structure TokenResponse where
  access_token : String
  token_type : Option String
  expires_in : Rat
deriving Repr, DecidableEq

/-- Message of the `InvalidResponse` error thrown by `login`. -/
def loginErrMsg : String := "Login response missing an access token"

/-- Embeds `login` (`src/api/auth.ts` lines 23-53) applied to the parsed
2xx response body: resolve the token candidate, reject a falsy or
non-string candidate, keep `token_type` only when it is a string, and
normalize the expiry via `toNumber(..., 3600)`. -/
def login (data : Json) : Except String TokenResponse :=
  match tokenCandidate data with
  | some (.str s) =>
    if s = "" then .error loginErrMsg
    else
      .ok { access_token := s,
            token_type :=
              match jsGet data "token_type" with
              | some (.str tt) => some tt
              | _ => none,
            expires_in := toNumber (expiryCandidate data) 3600 }
  | _ => .error loginErrMsg

/-- C3 counterexample: the claim says the access token is the first
STRING found among the five fields, so for
`{"access_token": 5, "access": "abc"}` it predicts success with token
`"abc"`; the code resolves the first NON-NULLISH candidate (`5`),
finds it is not a string, and fails. -/
theorem login_first_string_counterexample :
    jsGet (Json.obj [("access_token", Json.num 5), ("access", Json.str "abc")]) "access"
      = some (Json.str "abc") ∧
    login (Json.obj [("access_token", Json.num 5), ("access", Json.str "abc")])
      = .error "Login response missing an access token" :=
  ⟨rfl, rfl⟩

/-- C3 (amended): `login` succeeds exactly when the first non-nullish
candidate among `access_token`, `access`, `token`, `accessToken`,
`id_token` (or the bare string body) is a non-empty string, which then
becomes `access_token`; otherwise it fails with the invalid-response
error even if a later field holds a string; in a success the returned
`expires_in` equals the `toNumber` normalization of the expiry chain and
defaults to `3600` when that chain is absent or not numerically
convertible, while an explicit `null` expiry converts to `0` (the
terminal `?? data?.expires` operand is returned as-is, not defaulted).
`{"access":"abc123"}` yields token `"abc123"` with expiry `3600`, and
`{}` fails. -/
theorem login_normalization_spec :
    (∀ data s, tokenCandidate data = some (.str s) → s ≠ "" →
      ∃ tr, login data = .ok tr ∧ tr.access_token = s ∧
        tr.expires_in = toNumber (expiryCandidate data) 3600) ∧
    (∀ data,
      (match tokenCandidate data with
       | some (.str s) => s = ""
       | _ => True) →
      login data = .error loginErrMsg) ∧
    (∀ data s, tokenCandidate data = some (.str s) → s ≠ "" →
      expiryCandidate data = none →
      ∃ tr, login data = .ok tr ∧ tr.access_token = s ∧ tr.expires_in = 3600) ∧
    (∀ data s v, tokenCandidate data = some (.str s) → s ≠ "" →
      expiryCandidate data = some v → jsNumber v = none →
      ∃ tr, login data = .ok tr ∧ tr.access_token = s ∧ tr.expires_in = 3600) ∧
    (∀ data s, tokenCandidate data = some (.str s) → s ≠ "" →
      nnJson (jsGet data "expires_in") = none →
      nnJson (jsGet data "expiresIn") = none →
      jsGet data "expires" = some .null →
      ∃ tr, login data = .ok tr ∧ tr.access_token = s ∧ tr.expires_in = 0) ∧
    login (Json.obj [("access", Json.str "abc123")]) = .ok ⟨"abc123", none, 3600⟩ ∧
    login (Json.obj []) = .error loginErrMsg ∧
    login (Json.str "bare-token") = .ok ⟨"bare-token", none, 3600⟩ ∧
    login (Json.obj [("access", Json.str "a"), ("expires", Json.null)]) =
      .ok ⟨"a", none, 0⟩ := by
  refine ⟨?_, ?_, ?_, ?_, ?_, rfl, rfl, rfl, rfl⟩
  · intro data s hc hs
    refine ⟨⟨s,
      (match jsGet data "token_type" with
       | some (.str tt) => some tt
       | _ => none),
      toNumber (expiryCandidate data) 3600⟩, ?_, rfl, rfl⟩
    simp [login, hc, hs]
  · intro data hfail
    unfold login
    cases hc : tokenCandidate data with
    | none => rfl
    | some v =>
      cases v with
      | str s =>
        rw [hc] at hfail
        simp only at hfail
        simp [hfail]
      | null => rfl
      | bool b => rfl
      | num q => rfl
      | arr xs => rfl
      | obj fs => rfl
  · intro data s hc hs hexp
    refine ⟨⟨s,
      (match jsGet data "token_type" with
       | some (.str tt) => some tt
       | _ => none), 3600⟩, ?_, rfl, rfl⟩
    simp [login, hc, hs, toNumber, hexp]
  · intro data s v hc hs hexp hnum
    refine ⟨⟨s,
      (match jsGet data "token_type" with
       | some (.str tt) => some tt
       | _ => none), 3600⟩, ?_, rfl, rfl⟩
    simp [login, hc, hs, toNumber, hexp, hnum]
  · intro data s hc hs h1 h2 h3
    refine ⟨⟨s,
      (match jsGet data "token_type" with
       | some (.str tt) => some tt
       | _ => none), 0⟩, ?_, rfl, rfl⟩
    have hexp : expiryCandidate data = some Json.null := by
      simp [expiryCandidate, h1, h2, h3]
    simp [login, hc, hs, toNumber, hexp, jsNumber]

/-- Witness instantiating `login_normalization_spec` at concrete
response bodies. -/
theorem login_normalization_spec_witness :
    (∃ tr, login (Json.obj [("token", Json.str "t3"), ("expires_in", Json.num 120)]) = .ok tr ∧
      tr.access_token = "t3" ∧
      tr.expires_in = toNumber (expiryCandidate
        (Json.obj [("token", Json.str "t3"), ("expires_in", Json.num 120)])) 3600) ∧
    login (Json.obj [("access_token", Json.bool true)]) = .error loginErrMsg ∧
    (∃ tr, login (Json.obj [("access", Json.str "abc123")]) = .ok tr ∧
      tr.access_token = "abc123" ∧ tr.expires_in = 3600) ∧
    (∃ tr, login (Json.obj [("access", Json.str "a"), ("expires_in", Json.str "soon")]) = .ok tr ∧
      tr.access_token = "a" ∧ tr.expires_in = 3600) ∧
    (∃ tr, login (Json.obj [("access", Json.str "b"), ("expires", Json.null)]) = .ok tr ∧
      tr.access_token = "b" ∧ tr.expires_in = 0) := by
  refine ⟨?_, ?_, ?_, ?_, ?_⟩
  · exact login_normalization_spec.1 _ "t3" rfl (by decide)
  · exact login_normalization_spec.2.1 _ (by exact trivial)
  · exact login_normalization_spec.2.2.1 _ "abc123" rfl (by decide) rfl
  · exact login_normalization_spec.2.2.2.1 _ "a" (Json.str "soon") rfl (by decide) rfl rfl
  · exact login_normalization_spec.2.2.2.2.1 _ "b" rfl (by decide) rfl rfl rfl

/-- Helper: `takeWhile` passes over a prefix whose elements all satisfy
the predicate. -/
theorem takeWhile_append_all {α} (p : α → Bool) (l1 l2 : List α)
    (h : ∀ c ∈ l1, p c = true) :
    (l1 ++ l2).takeWhile p = l1 ++ l2.takeWhile p := by
  induction l1 with
  | nil => simp
  | cons c cs ih =>
    have hc := h c (by simp)
    simp only [List.cons_append, List.takeWhile_cons, hc, if_true]
    rw [ih (fun x hx => h x (by simp [hx]))]

/-- Helper: `dropWhile` consumes a prefix whose elements all satisfy the
predicate. -/
theorem dropWhile_append_all {α} (p : α → Bool) (l1 l2 : List α)
    (h : ∀ c ∈ l1, p c = true) :
    (l1 ++ l2).dropWhile p = l2.dropWhile p := by
  induction l1 with
  | nil => simp
  | cons c cs ih =>
    have hc := h c (by simp)
    simp only [List.cons_append, List.dropWhile_cons, hc, if_true]
    exact ih (fun x hx => h x (by simp [hx]))

/-- Helper: `dropWhile` stops at a head that fails the predicate. -/
theorem dropWhile_cons_head {α} (p : α → Bool) (c : α) (l : List α)
    (h : p c = false) : (c :: l).dropWhile p = c :: l := by
  simp [List.dropWhile_cons, h]

/-- Helper: `dropWhile` is idempotent. -/
theorem dropWhile_dropWhile {α} (p : α → Bool) (l : List α) :
    (l.dropWhile p).dropWhile p = l.dropWhile p := by
  induction l with
  | nil => simp
  | cons c cs ih =>
    by_cases hc : p c = true
    · simp [List.dropWhile_cons, hc, ih]
    · simp only [Bool.not_eq_true] at hc
      simp [List.dropWhile_cons, hc]

/-- Scan of the lazy `\S+?:` step of the prefix regex in
`uploadDocuments`: walk the non-whitespace run after the method and
whitespace, returning the remainder after the first `:`; fail at
whitespace or the end of input (whereupon the whole regex fails and the
message is left unchanged). -/
def colonSplit : List Char → Option (List Char)
  | [] => none
  | c :: cs => if c = ':' then some cs else if isWS c then none else colonSplit cs


/-- Embeds `String(raw).replace(/^[A-Z]+?\s+\S+?:\s*/i, "")` from
`uploadDocuments` (`src/api/admin.ts`).  Because letters, whitespace and
non-whitespace are disjoint classes, the regex matches exactly: a
non-empty letter run, a non-empty whitespace run, then at least one
non-whitespace character up to and including the first `:` of that run,
then any following whitespace; when no such decomposition exists the
string is unchanged. -/
def stripMethodUrl (s : String) : String :=
  if s.data.takeWhile isAsciiLetter = [] ∨
      ((s.data.dropWhile isAsciiLetter).takeWhile isWS) = [] then s
  else
    ((colonSplit ((s.data.dropWhile isAsciiLetter).dropWhile isWS).tail).map
      (fun tail => (⟨tail.dropWhile isWS⟩ : String))).getD s

/-- Embeds the catch branch of `uploadDocuments`:
`String(raw).replace(...).trim()` applied to the failure message. -/
def cleanUploadError (raw : String) : String :=
  jsTrim (stripMethodUrl raw)

/-- Per-file upload record (`UploadResult` in `src/api/admin.ts`). -/
inductive UploadResult where
  | ok (data : Json) : UploadResult
  | err (filename : String) (error : String) : UploadResult
deriving Repr

/-- Embeds one iteration of the upload loop: a successful `postForm`
yields `{ok: true, data}`; a thrown request error is converted into
`{ok: false, filename, error}` with `e?.message || "Upload failed"`
cleaned up. -/
def uploadOutcome (f : String × Except String Json) : UploadResult :=
  match f.2 with
  | .ok d => .ok d
  | .error raw => .err f.1 (cleanUploadError (if raw = "" then "Upload failed" else raw))

/-- Embeds `uploadDocuments(files)` (`src/api/admin.ts` lines 15-31):
the sequential per-file loop over the files, each paired with the
outcome of its own `postForm` request; no failure escapes the loop. -/
def uploadDocuments : List (String × Except String Json) → List UploadResult
  | [] => []
  | f :: rest => uploadOutcome f :: uploadDocuments rest

/-- Helper: the upload loop is a map over the input files. -/
theorem uploadDocuments_eq_map (files : List (String × Except String Json)) :
    uploadDocuments files = files.map uploadOutcome := by
  induction files with
  | nil => rfl
  | cons f rest ih => simp [uploadDocuments, ih]

/-- Helper: `colonSplit` passes over non-whitespace, non-colon
characters and splits at the first colon. -/
theorem colonSplit_skip (cs tail : List Char)
    (h : ∀ c ∈ cs, isWS c = false ∧ c ≠ ':') :
    colonSplit (cs ++ ':' :: tail) = some tail := by
  induction cs with
  | nil => simp [colonSplit]
  | cons d ds ih =>
    have hd := h d (by simp)
    simp only [List.cons_append, colonSplit, hd.1, hd.2, if_false, Bool.false_eq_true, ite_false]
    exact ih (fun x hx => h x (by simp [hx]))

/-- Helper: the regex strip removes exactly a `"<METHOD> <url>: "`
prefix when the method is letters and the url contains no whitespace
and no colon. -/
theorem stripMethodUrl_concat (m u msg : String)
    (hm0 : m.data ≠ []) (hm : ∀ c ∈ m.data, isAsciiLetter c = true)
    (hu0 : u.data ≠ []) (hu : ∀ c ∈ u.data, isWS c = false ∧ c ≠ ':') :
    stripMethodUrl (m ++ " " ++ u ++ ": " ++ msg) = ⟨msg.data.dropWhile isWS⟩ := by
  have hdata : (m ++ " " ++ u ++ ": " ++ msg).data
      = m.data ++ ' ' :: (u.data ++ ':' :: ' ' :: msg.data) := by
    simp [String.data_append]
  obtain ⟨c, cs, hcs⟩ : ∃ c cs, u.data = c :: cs := by
    cases hcu : u.data with
    | nil => exact absurd hcu hu0
    | cons c cs => exact ⟨c, cs, rfl⟩
  have hc0 := hu c (by simp [hcs])
  have h1 : (m ++ " " ++ u ++ ": " ++ msg).data.takeWhile isAsciiLetter = m.data := by
    rw [hdata, takeWhile_append_all _ _ _ hm, List.takeWhile_cons]
    simp [show isAsciiLetter ' ' = false by decide]
  have h2 : (m ++ " " ++ u ++ ": " ++ msg).data.dropWhile isAsciiLetter
      = ' ' :: (u.data ++ ':' :: ' ' :: msg.data) := by
    rw [hdata, dropWhile_append_all _ _ _ hm]
    have hletter : isAsciiLetter ' ' = false := by decide
    exact dropWhile_cons_head isAsciiLetter ' ' (u.data ++ ':' :: ' ' :: msg.data) hletter
  have h4 : (' ' :: (u.data ++ ':' :: ' ' :: msg.data)).dropWhile isWS
      = c :: (cs ++ ':' :: ' ' :: msg.data) := by
    rw [List.dropWhile_cons]
    simp only [show isWS ' ' = true by decide, if_true]
    rw [hcs, List.cons_append]
    exact dropWhile_cons_head _ _ _ hc0.1
  have hcol : colonSplit (cs ++ ':' :: ' ' :: msg.data) = some (' ' :: msg.data) :=
    colonSplit_skip cs (' ' :: msg.data)
      (fun x hx => hu x (by simp [hcs, hx]))
  unfold stripMethodUrl
  rw [if_neg]
  · rw [h2, h4, List.tail_cons, hcol]
    simp [List.dropWhile_cons, show isWS ' ' = true by decide]
  · rw [h1, h2, List.takeWhile_cons]
    simp only [show isWS ' ' = true by decide, if_true]
    simp [hm0]

/-- Helper: trimming is unaffected by first dropping leading
whitespace. -/
theorem jsTrim_dropWhile (l : List Char) :
    jsTrim ⟨l.dropWhile isWS⟩ = jsTrim ⟨l⟩ := by
  show (⟨jsTrimChars (l.dropWhile isWS)⟩ : String) = ⟨jsTrimChars l⟩
  unfold jsTrimChars
  rw [dropWhile_dropWhile]

/-- Helper: the full clean-up of an upload error message. -/
theorem cleanUploadError_concat (m u msg : String)
    (hm0 : m.data ≠ []) (hm : ∀ c ∈ m.data, isAsciiLetter c = true)
    (hu0 : u.data ≠ []) (hu : ∀ c ∈ u.data, isWS c = false ∧ c ≠ ':') :
    cleanUploadError (m ++ " " ++ u ++ ": " ++ msg) = jsTrim msg := by
  unfold cleanUploadError
  rw [stripMethodUrl_concat m u msg hm0 hm hu0 hu, jsTrim_dropWhile]

/-- Helper: the i-th upload result is the outcome for the i-th file. -/
theorem uploadDocuments_get (files : List (String × Except String Json)) (i : Nat)
    (hi : i < files.length) (hi2 : i < (uploadDocuments files).length) :
    (uploadDocuments files).get ⟨i, hi2⟩ = uploadOutcome (files.get ⟨i, hi⟩) := by
  induction files generalizing i with
  | nil => cases hi
  | cons f rest ih =>
    cases i with
    | zero => rfl
    | succ n => exact ih n (Nat.lt_of_succ_lt_succ hi) (Nat.lt_of_succ_lt_succ hi2)

/-- C4: `uploadDocuments` returns exactly one entry per input file in
input order; a file whose request succeeded yields `{ok: true, data}`,
a file whose request failed yields `{ok: false, filename, error}` with
the `"<METHOD> <url>: "` prefix stripped from the trimmed failure
message, and no individual failure escapes (the result is total), so a
failing file never prevents later files from being processed. -/
theorem uploadDocuments_per_file_spec :
    (∀ files, (uploadDocuments files).length = files.length) ∧
    (∀ files i d (hi : i < files.length) (hi2 : i < (uploadDocuments files).length),
      (files.get ⟨i, hi⟩).2 = .ok d →
      (uploadDocuments files).get ⟨i, hi2⟩ = .ok d) ∧
    (∀ files i raw (hi : i < files.length) (hi2 : i < (uploadDocuments files).length),
      (files.get ⟨i, hi⟩).2 = .error raw →
      (uploadDocuments files).get ⟨i, hi2⟩ =
        .err (files.get ⟨i, hi⟩).1
          (cleanUploadError (if raw = "" then "Upload failed" else raw))) ∧
    (∀ m u msg, m.data ≠ [] → (∀ c ∈ m.data, isAsciiLetter c = true) →
      u.data ≠ [] → (∀ c ∈ u.data, isWS c = false ∧ c ≠ ':') →
      cleanUploadError (m ++ " " ++ u ++ ": " ++ msg) = jsTrim msg) ∧
    uploadDocuments
      [("a.pdf", .ok (Json.obj [("id", Json.num 7)])),
       ("b.pdf", .error "POST /admin/rag-documents/: File too large")] =
      [.ok (Json.obj [("id", Json.num 7)]), .err "b.pdf" "File too large"] := by
  refine ⟨?_, ?_, ?_, ?_, ?_⟩
  · intro files
    rw [uploadDocuments_eq_map]
    simp
  · intro files i d hi hi2 hok
    rw [uploadDocuments_get files i hi hi2]
    simp only [List.get_eq_getElem] at hok
    simp [uploadOutcome, hok]
  · intro files i raw hi hi2 herr
    rw [uploadDocuments_get files i hi hi2]
    simp only [List.get_eq_getElem] at herr
    simp [uploadOutcome, herr]
  · intro m u msg hm0 hm hu0 hu
    exact cleanUploadError_concat m u msg hm0 hm hu0 hu
  · rfl

/-- Witness instantiating `uploadDocuments_per_file_spec`: a succeeding
file followed by a failing one. -/
theorem uploadDocuments_per_file_spec_witness :
    ((uploadDocuments
        [("a.pdf", Except.ok (Json.obj [])), ("b.pdf", Except.error "POST /x: boom")]).get
      ⟨0, by decide⟩ = UploadResult.ok (Json.obj [])) ∧
    ((uploadDocuments
        [("a.pdf", Except.ok (Json.obj [])), ("b.pdf", Except.error "POST /x: boom")]).get
      ⟨1, by decide⟩ =
      UploadResult.err "b.pdf"
        (cleanUploadError (if "POST /x: boom" = "" then "Upload failed" else "POST /x: boom"))) ∧
    cleanUploadError ("POST" ++ " " ++ "/x" ++ ": " ++ "boom") = jsTrim "boom" := by
  refine ⟨?_, ?_, ?_⟩
  · exact uploadDocuments_per_file_spec.2.1 _ 0 (Json.obj []) (by decide) (by decide) rfl
  · exact uploadDocuments_per_file_spec.2.2.1 _ 1 "POST /x: boom" (by decide) (by decide) rfl
  · exact uploadDocuments_per_file_spec.2.2.2.1 "POST" "/x" "boom" (by decide) (by decide)
      (by decide) (by decide)

/-- Modelled from the spec: auxiliary pass collapsing every whitespace
run to a single space (the `rename` sanitizer of §4.24; the current
`rename(id, newTitle?)` body is missing from `src/`, whose copy of
`useUrlChat.ts` carries only the legacy prompt-based `rename(id)` while
its caller `commitEdit` in `UserSidebar.tsx` already passes a title).
The flag records whether the previous character was whitespace. -/
def collapseWSAux : Bool → List Char → List Char
  | _, [] => []
  | prevWS, c :: cs =>
    if isWS c then
      if prevWS then collapseWSAux true cs else ' ' :: collapseWSAux true cs
    else c :: collapseWSAux false cs

/-- Modelled from the spec: sanitize a rename title by collapsing
whitespace runs to single spaces, trimming, and truncating to 45
characters (§4.24). -/
def sanitizeTitle (t : String) : String :=
  ⟨(jsTrimChars (collapseWSAux false t.data)).take 45⟩

/-- Effect of one `rename` call: either the legacy blocking prompt
dialog, or a persisted title for the session. -/
inductive RenameAction where
  | prompted : RenameAction
  | persisted (id : Nat) (title : String) : RenameAction
deriving Repr, DecidableEq

/-- Modelled from the spec: `rename(id, newTitle?)` of the URL-bound
chat hook — with no title argument it falls back to the blocking prompt
dialog; with a title it persists the sanitized title (§4.24). -/
def rename (id : Nat) (newTitle : Option String) : RenameAction :=
  match newTitle with
  | none => .prompted
  | some t => .persisted id (sanitizeTitle t)

/-- Helper: collapsing is the identity on whitespace-free text. -/
theorem collapseWSAux_noWS (b : Bool) (l : List Char)
    (h : ∀ c ∈ l, isWS c = false) : collapseWSAux b l = l := by
  induction l generalizing b with
  | nil => rfl
  | cons c cs ih =>
    have hc := h c (by simp)
    simp [collapseWSAux, hc, ih false (fun x hx => h x (by simp [hx]))]

/-- Helper: trimming is the identity on whitespace-free text. -/
theorem jsTrimChars_noWS (l : List Char) (h : ∀ c ∈ l, isWS c = false) :
    jsTrimChars l = l := by
  unfold jsTrimChars
  have h1 : l.dropWhile isWS = l := by
    cases l with
    | nil => rfl
    | cons c cs => exact dropWhile_cons_head _ _ _ (h c (by simp))
  rw [h1]
  have h2 : l.reverse.dropWhile isWS = l.reverse := by
    cases hr : l.reverse with
    | nil => rfl
    | cons c cs =>
      refine dropWhile_cons_head _ _ _ (h c ?_)
      have : c ∈ l.reverse := by simp [hr]
      simpa using this
  rw [h2, List.reverse_reverse]

/-- C5: with a supplied title, the rename of the chat hook persists exactly
the sanitized title — whitespace runs collapsed to single spaces,
trimmed, truncated to at most 45 characters — and only a missing title
argument falls back to the blocking prompt; `"  My    Chat   "`
persists as `"My Chat"`, and a whitespace-free 60-character title
persists as exactly its first 45 characters. -/
theorem rename_sanitizes_spec :
    (∀ id t, rename id (some t) = .persisted id (sanitizeTitle t)) ∧
    (∀ id, rename id none = .prompted) ∧
    (∀ t, (sanitizeTitle t).length ≤ 45) ∧
    (∀ id t, t.data.length = 60 → (∀ c ∈ t.data, isWS c = false) →
      rename id (some t) = .persisted id ⟨t.data.take 45⟩) ∧
    rename 7 (some "  My    Chat   ") = .persisted 7 "My Chat" ∧
    rename 8 (some "012345678901234567890123456789012345678901234567890123456789") =
      .persisted 8 "012345678901234567890123456789012345678901234" := by
  refine ⟨fun id t => rfl, fun id => rfl, ?_, ?_, by decide, by decide⟩
  · intro t
    show ((jsTrimChars (collapseWSAux false t.data)).take 45).length ≤ 45
    simp [List.length_take]
  · intro id t hlen hws
    show RenameAction.persisted id (sanitizeTitle t) = _
    unfold sanitizeTitle
    rw [collapseWSAux_noWS false t.data hws, jsTrimChars_noWS t.data hws]

/-- Witness instantiating `rename_sanitizes_spec` at a concrete
60-character whitespace-free title. -/
theorem rename_sanitizes_spec_witness :
    (sanitizeTitle "hello world").length ≤ 45 ∧
    rename 3 (some "abcdefghijabcdefghijabcdefghijabcdefghijabcdefghijabcdefghij") =
      .persisted 3 ⟨("abcdefghijabcdefghijabcdefghijabcdefghijabcdefghijabcdefghij" : String).data.take 45⟩ := by
  refine ⟨?_, ?_⟩
  · exact rename_sanitizes_spec.2.2.1 "hello world"
  · exact rename_sanitizes_spec.2.2.2.1 3 _ (by decide) (by decide)

/-- Route patterns of `RoutesView` (`src/app/routes.tsx`); the `:sid`
routes carry their parameter, and `other` stands for any unmatched
path. -/
inductive RoutePath where
  | root | signin | signup | administrator
  | user | userChat | userChatSid (sid : String) | userNotifications
  | admin | adminAdmin | adminNotifications
  | adminUser | adminUserChat | adminUserChatSid (sid : String)
  | superadmin | superadminAdmins | superadminUsers
  | other (p : String)
deriving Repr, DecidableEq

/-- What a route resolves to: a rendered page, or a `Navigate` redirect
(`replace` mirrors the `replace` prop). -/
inductive RouteResult where
  | page (name : String) : RouteResult
  | redirect (target : String) (replacing : Bool) : RouteResult
deriving Repr, DecidableEq

/-- Embeds `RoutesView` (`src/app/routes.tsx`): the actor comes from
auth state (`none` = unauthenticated; hydration casts the stored string
unchecked, so any string can occur) and each route guards exactly as in
the source. -/
def routesView (actor : Option String) (path : RoutePath) : RouteResult :=
  match path with
  | .root => .page "LandingPage"
  | .signin => .page "SignInPage"
  | .signup => .page "SignUpPage"
  | .administrator => .page "SuperAdminLoginPage"
  | .user =>
    if actor = some "user" then .redirect "/user/chat" true else .redirect "/signin" false
  | .userChat =>
    if actor = some "user" then .page "UserChatPage" else .redirect "/signin" false
  | .userChatSid _ =>
    if actor = some "user" then .page "UserChatPage" else .redirect "/signin" false
  | .userNotifications =>
    if actor = some "user" then .page "NotificationsPage" else .redirect "/signin" false
  | .admin =>
    if actor = some "admin" then .redirect "/admin/admin" true else .redirect "/signin" false
  | .adminAdmin =>
    if actor = some "admin" then .page "RagDocumentsPage" else .redirect "/signin" false
  | .adminNotifications =>
    if actor = some "admin" then .page "NotificationsPage" else .redirect "/signin" false
  | .adminUser =>
    if actor = some "admin" then .redirect "/admin/user/chat" true else .redirect "/signin" false
  | .adminUserChat =>
    if actor = some "admin" then .page "AdminUserChatMain" else .redirect "/signin" false
  | .adminUserChatSid _ =>
    if actor = some "admin" then .page "AdminUserChatMain" else .redirect "/signin" false
  | .superadmin =>
    if actor = some "super_admin" then .redirect "/superadmin/admins" true
    else .redirect "/signin" false
  | .superadminAdmins =>
    if actor = some "super_admin" then .page "SuperAdminAdminsPage" else .redirect "/signin" false
  | .superadminUsers =>
    if actor = some "super_admin" then .page "SuperAdminUsersPage" else .redirect "/signin" false
  | .other _ => .redirect "/" false

/-- C6: `/admin/admin` renders the RAG documents page exactly for actor
`admin` and redirects every other actor (unauthenticated and `user`
included) to `/signin`; bare `/admin` redirects to `/admin/admin`
replacing history for actor `admin` and to `/signin` otherwise. -/
theorem admin_routes_guard_spec :
    (∀ actor, routesView actor .adminAdmin = .page "RagDocumentsPage" ↔ actor = some "admin") ∧
    (∀ actor, actor ≠ some "admin" →
      routesView actor .adminAdmin = .redirect "/signin" false) ∧
    (∀ actor, actor = some "admin" →
      routesView actor .admin = .redirect "/admin/admin" true) ∧
    (∀ actor, actor ≠ some "admin" →
      routesView actor .admin = .redirect "/signin" false) ∧
    routesView none .adminAdmin = .redirect "/signin" false ∧
    routesView (some "user") .adminAdmin = .redirect "/signin" false ∧
    routesView (some "admin") .admin = .redirect "/admin/admin" true := by
  refine ⟨?_, ?_, ?_, ?_, by decide, by decide, by decide⟩
  · intro actor
    by_cases ha : actor = some "admin" <;> simp [routesView, ha]
  · intro actor ha
    simp [routesView, ha]
  · intro actor ha
    simp [routesView, ha]
  · intro actor ha
    simp [routesView, ha]

/-- Witness instantiating `admin_routes_guard_spec` at concrete
actors. -/
theorem admin_routes_guard_spec_witness :
    routesView (some "super_admin") .adminAdmin = .redirect "/signin" false ∧
    routesView (some "admin") .adminAdmin = .page "RagDocumentsPage" ∧
    routesView (some "user") .admin = .redirect "/signin" false := by
  refine ⟨?_, ?_, ?_⟩
  · exact admin_routes_guard_spec.2.1 (some "super_admin") (by decide)
  · exact (admin_routes_guard_spec.1 (some "admin")).mpr rfl
  · exact admin_routes_guard_spec.2.2.2.1 (some "user") (by decide)

/-- The per-turn widget state (`WidgetState` in `ChatWidgets.tsx`). -/
inductive AnswerStyle where
  | default | short | detailed
deriving Repr, DecidableEq

/-- Widget state: the Context toggle (`useDocuments`, Docs = `true`)
and the Answer Style selector. -/
structure WidgetState where
  useDocuments : Bool
  answerStyle : AnswerStyle
deriving Repr, DecidableEq

/-- The context line pushed when Docs is selected. -/
def ctxDocs : String :=
  "Use the uploaded company documents as primary context when answering."

/-- The context line pushed when LLM (general knowledge) is selected. -/
def ctxLLM : String :=
  "Answer using your general knowledge. Do not rely on uploaded company documents."

/-- The style line for `short`. -/
def styleShort : String := "Keep the answer very short (2–3 sentences)."

/-- The style line for `detailed` on the user chat page. -/
def styleDetailedUser : String :=
  "Provide a detailed, step-by-step explanation with any important caveats."

/-- The style line for `detailed` on the admin-as-user chat page. -/
def styleDetailedAdmin : String :=
  "Provide a detailed, step-by-step explanation with any important caveats, suitable for an admin reviewing user queries."

/-- Embeds `pieces.join("\n\n")`. -/
def joinNN : List String → String
  | [] => ""
  | [x] => x
  | x :: xs => x ++ "\n\n" ++ joinNN xs

/-- Embeds `buildContent` of `UserChatMain` (`src/pages/user`, lines
14-37): one context line, an optional style line, then the raw text,
joined with blank lines. -/
def buildContentUser (raw : String) (widgets : WidgetState) : String :=
  joinNN
    ((if widgets.useDocuments then [ctxDocs] else [ctxLLM]) ++
      (match widgets.answerStyle with
       | .short => [styleShort]
       | .detailed => [styleDetailedUser]
       | .default => []) ++ [raw])

/-- Embeds `buildContent` of `AdminUserChatMain`: identical except for
the detailed-style line. -/
def buildContentAdmin (raw : String) (widgets : WidgetState) : String :=
  joinNN
    ((if widgets.useDocuments then [ctxDocs] else [ctxLLM]) ++
      (match widgets.answerStyle with
       | .short => [styleShort]
       | .detailed => [styleDetailedAdmin]
       | .default => []) ++ [raw])

/-- Embeds the send helper of the hook: `chat.sendMessage(id, content?.trim() ||
"(message)")`. -/
def hookSendText (content : String) : String :=
  if jsTrim content = "" then "(message)" else jsTrim content

/-- Embeds `sendMessage`: `const text = (content ?? "").trim() ||
"(message)"` before POSTing `{content: text}`. -/
def sendMessageText (content : String) : String :=
  if jsTrim content = "" then "(message)" else jsTrim content

/-- The content transmitted for one user-page chat turn: the composed
text passed through the hook and the chat API client. -/
def transmittedUser (raw : String) (w : WidgetState) : String :=
  sendMessageText (hookSendText (buildContentUser raw w))

/-- The content transmitted for one admin-as-user chat turn. -/
def transmittedAdmin (raw : String) (w : WidgetState) : String :=
  sendMessageText (hookSendText (buildContentAdmin raw w))

/-- Test that a string begins with a non-whitespace character. -/
def startsNonWS (s : String) : Bool :=
  match s.data with
  | [] => false
  | c :: _ => !isWS c

/-- Helper: a string whose head is non-whitespace and whose final
character is non-whitespace is unchanged by `trim`. -/
theorem jsTrim_wrap (P raw : String) (init : List Char) (c : Char)
    (hP : startsNonWS P = true) (hr : raw.data = init ++ [c]) (hc : isWS c = false) :
    jsTrim (P ++ raw) = P ++ raw := by
  obtain ⟨d, ds, hPd, hd⟩ : ∃ d ds, P.data = d :: ds ∧ isWS d = false := by
    unfold startsNonWS at hP
    cases hPd : P.data with
    | nil => rw [hPd] at hP; simp at hP
    | cons d ds =>
      rw [hPd] at hP
      simp at hP
      exact ⟨d, ds, rfl, by simpa using hP⟩
  have hdata : (P ++ raw).data = d :: ((ds ++ init) ++ [c]) := by
    rw [String.data_append, hPd, hr]
    simp
  suffices h : jsTrimChars (P ++ raw).data = (P ++ raw).data by
    show (⟨jsTrimChars (P ++ raw).data⟩ : String) = P ++ raw
    rw [h]
  rw [hdata]
  unfold jsTrimChars
  rw [dropWhile_cons_head _ _ _ hd]
  have hrev : (d :: ((ds ++ init) ++ [c])).reverse = c :: ((ds ++ init).reverse ++ [d]) := by
    simp
  rw [hrev, dropWhile_cons_head _ _ _ hc, ← hrev, List.reverse_reverse]

/-- Helper: a string with a non-whitespace head is nonempty after
appending. -/
theorem wrap_ne_empty (P raw : String) (hP : startsNonWS P = true) :
    P ++ raw ≠ "" := by
  intro h
  have hd : (P ++ raw).data = ("" : String).data := by rw [h]
  rw [String.data_append] at hd
  unfold startsNonWS at hP
  cases hPd : P.data with
  | nil => rw [hPd] at hP; simp at hP
  | cons d ds =>
    rw [hPd] at hd
    simp at hd

/-- Helper: the send pipeline transmits a stable composed message
unchanged. -/
theorem sendPipeline_stable (P raw : String) (init : List Char) (c : Char)
    (hP : startsNonWS P = true) (hr : raw.data = init ++ [c]) (hc : isWS c = false) :
    sendMessageText (hookSendText (P ++ raw)) = P ++ raw := by
  have h1 := jsTrim_wrap P raw init c hP hr hc
  have h2 := wrap_ne_empty P raw hP
  simp [hookSendText, sendMessageText, h1, h2]

/-- C7: for every outbound chat message on the user and admin-as-user
pages (the composer guarantees trimmed, nonempty user text), the
transmitted content is exactly: the Docs context line when Docs is
selected, else the general-knowledge line; then the style line for
`short` / `detailed` only; then the raw user text — all joined by
blank lines.  With Context=Docs and style=short the content is exactly
the context line, the short-style line and the user text joined by
blank lines. -/
theorem buildContent_transmission_spec :
    (∀ raw init c, raw.data = init ++ [c] → isWS c = false →
      transmittedUser raw ⟨true, .short⟩ = ctxDocs ++ "\n\n" ++ styleShort ++ "\n\n" ++ raw ∧
      transmittedUser raw ⟨false, .short⟩ = ctxLLM ++ "\n\n" ++ styleShort ++ "\n\n" ++ raw ∧
      transmittedUser raw ⟨true, .detailed⟩ =
        ctxDocs ++ "\n\n" ++ styleDetailedUser ++ "\n\n" ++ raw ∧
      transmittedUser raw ⟨false, .detailed⟩ =
        ctxLLM ++ "\n\n" ++ styleDetailedUser ++ "\n\n" ++ raw ∧
      transmittedUser raw ⟨true, .default⟩ = ctxDocs ++ "\n\n" ++ raw ∧
      transmittedUser raw ⟨false, .default⟩ = ctxLLM ++ "\n\n" ++ raw ∧
      transmittedAdmin raw ⟨true, .short⟩ = ctxDocs ++ "\n\n" ++ styleShort ++ "\n\n" ++ raw ∧
      transmittedAdmin raw ⟨false, .short⟩ = ctxLLM ++ "\n\n" ++ styleShort ++ "\n\n" ++ raw ∧
      transmittedAdmin raw ⟨true, .detailed⟩ =
        ctxDocs ++ "\n\n" ++ styleDetailedAdmin ++ "\n\n" ++ raw ∧
      transmittedAdmin raw ⟨false, .detailed⟩ =
        ctxLLM ++ "\n\n" ++ styleDetailedAdmin ++ "\n\n" ++ raw ∧
      transmittedAdmin raw ⟨true, .default⟩ = ctxDocs ++ "\n\n" ++ raw ∧
      transmittedAdmin raw ⟨false, .default⟩ = ctxLLM ++ "\n\n" ++ raw) ∧
    transmittedUser "What is the leave policy?" ⟨true, .short⟩ =
      "Use the uploaded company documents as primary context when answering.\n\nKeep the answer very short (2–3 sentences).\n\nWhat is the leave policy?" := by
  refine ⟨?_, by decide⟩
  intro raw init c hr hc
  refine ⟨?_, ?_, ?_, ?_, ?_, ?_, ?_, ?_, ?_, ?_, ?_, ?_⟩
  · unfold transmittedUser
    show sendMessageText (hookSendText
      ((ctxDocs ++ "\n\n") ++ ((styleShort ++ "\n\n") ++ raw))) = _
    rw [← String.append_assoc,
      sendPipeline_stable ((ctxDocs ++ "\n\n") ++ (styleShort ++ "\n\n")) raw init c
        (by decide) hr hc]
    simp [String.append_assoc]
  · unfold transmittedUser
    show sendMessageText (hookSendText
      ((ctxLLM ++ "\n\n") ++ ((styleShort ++ "\n\n") ++ raw))) = _
    rw [← String.append_assoc,
      sendPipeline_stable ((ctxLLM ++ "\n\n") ++ (styleShort ++ "\n\n")) raw init c
        (by decide) hr hc]
    simp [String.append_assoc]
  · unfold transmittedUser
    show sendMessageText (hookSendText
      ((ctxDocs ++ "\n\n") ++ ((styleDetailedUser ++ "\n\n") ++ raw))) = _
    rw [← String.append_assoc,
      sendPipeline_stable ((ctxDocs ++ "\n\n") ++ (styleDetailedUser ++ "\n\n")) raw init c
        (by decide) hr hc]
    simp [String.append_assoc]
  · unfold transmittedUser
    show sendMessageText (hookSendText
      ((ctxLLM ++ "\n\n") ++ ((styleDetailedUser ++ "\n\n") ++ raw))) = _
    rw [← String.append_assoc,
      sendPipeline_stable ((ctxLLM ++ "\n\n") ++ (styleDetailedUser ++ "\n\n")) raw init c
        (by decide) hr hc]
    simp [String.append_assoc]
  · unfold transmittedUser
    show sendMessageText (hookSendText ((ctxDocs ++ "\n\n") ++ raw)) = _
    rw [sendPipeline_stable (ctxDocs ++ "\n\n") raw init c (by decide) hr hc]
  · unfold transmittedUser
    show sendMessageText (hookSendText ((ctxLLM ++ "\n\n") ++ raw)) = _
    rw [sendPipeline_stable (ctxLLM ++ "\n\n") raw init c (by decide) hr hc]
  · unfold transmittedAdmin
    show sendMessageText (hookSendText
      ((ctxDocs ++ "\n\n") ++ ((styleShort ++ "\n\n") ++ raw))) = _
    rw [← String.append_assoc,
      sendPipeline_stable ((ctxDocs ++ "\n\n") ++ (styleShort ++ "\n\n")) raw init c
        (by decide) hr hc]
    simp [String.append_assoc]
  · unfold transmittedAdmin
    show sendMessageText (hookSendText
      ((ctxLLM ++ "\n\n") ++ ((styleShort ++ "\n\n") ++ raw))) = _
    rw [← String.append_assoc,
      sendPipeline_stable ((ctxLLM ++ "\n\n") ++ (styleShort ++ "\n\n")) raw init c
        (by decide) hr hc]
    simp [String.append_assoc]
  · unfold transmittedAdmin
    show sendMessageText (hookSendText
      ((ctxDocs ++ "\n\n") ++ ((styleDetailedAdmin ++ "\n\n") ++ raw))) = _
    rw [← String.append_assoc,
      sendPipeline_stable ((ctxDocs ++ "\n\n") ++ (styleDetailedAdmin ++ "\n\n")) raw init c
        (by decide) hr hc]
    simp [String.append_assoc]
  · unfold transmittedAdmin
    show sendMessageText (hookSendText
      ((ctxLLM ++ "\n\n") ++ ((styleDetailedAdmin ++ "\n\n") ++ raw))) = _
    rw [← String.append_assoc,
      sendPipeline_stable ((ctxLLM ++ "\n\n") ++ (styleDetailedAdmin ++ "\n\n")) raw init c
        (by decide) hr hc]
    simp [String.append_assoc]
  · unfold transmittedAdmin
    show sendMessageText (hookSendText ((ctxDocs ++ "\n\n") ++ raw)) = _
    rw [sendPipeline_stable (ctxDocs ++ "\n\n") raw init c (by decide) hr hc]
  · unfold transmittedAdmin
    show sendMessageText (hookSendText ((ctxLLM ++ "\n\n") ++ raw)) = _
    rw [sendPipeline_stable (ctxLLM ++ "\n\n") raw init c (by decide) hr hc]

/-- Witness instantiating `buildContent_transmission_spec` at a
concrete composer text. -/
theorem buildContent_transmission_spec_witness :
    transmittedUser "hello" ⟨true, .short⟩ =
      ctxDocs ++ "\n\n" ++ styleShort ++ "\n\n" ++ "hello" ∧
    transmittedAdmin "hello" ⟨false, .default⟩ = ctxLLM ++ "\n\n" ++ "hello" := by
  have h := buildContent_transmission_spec.1 "hello" ['h', 'e', 'l', 'l'] 'o' rfl (by decide)
  exact ⟨h.1, h.2.2.2.2.2.2.2.2.2.2.2⟩

/-- Embeds `remove(id)` of `useUrlChat` (`src/frontend/src/hooks/
useUrlChat.ts` lines 75-85): after `deleteSession`, the local list is
filtered; when the removed id was the active one, navigate to
`` `${prefix}/${nextId}` `` for the first remaining session (a falsy
`nextId`, i.e. none remaining or id 0, navigates to the bare prefix).
Returns the remaining sessions and the navigation target, if any. -/
def removeSession (sessions : List Nat) (sid : Option Nat) (id : Nat) (pre : String) :
    List Nat × Option String :=
  let next := sessions.filter (fun x => x ≠ id)
  if sid = some id then
    match next.head? with
    | some nid => (next, some (if nid = 0 then pre else pre ++ "/" ++ toString nid))
    | none => (next, some pre)
  else (next, none)

/-- C8: `remove(id)` deletes the session from the list; when the
removed session was active it navigates to the first remaining session,
or to the bare portal chat prefix when none remains, and otherwise it
does not navigate.  With sessions `[101, 102]` and `102` active,
`remove(102)` navigates to `/user/chat/101`; removing the last session
navigates to the bare prefix. -/
theorem remove_navigates_spec :
    (∀ sessions sid id pre,
      (removeSession sessions sid id pre).1 = sessions.filter (fun x => x ≠ id)) ∧
    (∀ sessions id pre nid,
      (sessions.filter (fun x => x ≠ id)).head? = some nid → nid ≠ 0 →
      (removeSession sessions (some id) id pre).2 = some (pre ++ "/" ++ toString nid)) ∧
    (∀ sessions id pre,
      (sessions.filter (fun x => x ≠ id)).head? = none →
      (removeSession sessions (some id) id pre).2 = some pre) ∧
    (∀ sessions sid id pre, sid ≠ some id →
      (removeSession sessions sid id pre).2 = none) ∧
    removeSession [101, 102] (some 102) 102 "/user/chat" =
      ([101], some ("/user/chat" ++ "/" ++ toString 101)) ∧
    removeSession [101] (some 101) 101 "/user/chat" = ([], some "/user/chat") := by
  refine ⟨?_, ?_, ?_, ?_, by decide, by decide⟩
  · intro sessions sid id pre
    unfold removeSession
    by_cases hs : sid = some id
    · simp only [hs, if_pos]
      cases hh : (sessions.filter (fun x => x ≠ id)).head? with
      | none => simp
      | some nid => simp
    · simp [hs]
  · intro sessions id pre nid hh hn
    unfold removeSession
    rw [if_pos rfl, hh]
    simp [hn]
  · intro sessions id pre hh
    unfold removeSession
    rw [if_pos rfl, hh]
  · intro sessions sid id pre hs
    simp [removeSession, hs]

/-- Witness instantiating `remove_navigates_spec` at concrete session
lists. -/
theorem remove_navigates_spec_witness :
    (removeSession [101, 102] (some 102) 102 "/user/chat").2 =
      some ("/user/chat" ++ "/" ++ toString 101) ∧
    (removeSession [101] (some 101) 101 "/user/chat").2 = some "/user/chat" ∧
    (removeSession [101, 102] (some 101) 102 "/user/chat").2 = none := by
  refine ⟨?_, ?_, ?_⟩
  · exact remove_navigates_spec.2.1 [101, 102] 102 "/user/chat" 101 (by decide) (by decide)
  · exact remove_navigates_spec.2.2.1 [101] 101 "/user/chat" (by decide)
  · exact remove_navigates_spec.2.2.2.1 [101, 102] (some 101) 102 "/user/chat" (by decide)

/-- Helper: the head of a `dropWhile` result fails the predicate. -/
theorem dropWhile_head_not {α} (p : α → Bool) (l : List α) (h : α) (t : List α)
    (he : l.dropWhile p = h :: t) : p h = false := by
  induction l with
  | nil => simp [List.dropWhile] at he
  | cons c cs ih =>
    rw [List.dropWhile_cons] at he
    by_cases hc : p c = true
    · rw [if_pos hc] at he
      exact ih he
    · rw [if_neg hc] at he
      cases he
      simpa using hc

/-- Helper: trimming is idempotent on character lists. -/
theorem jsTrimChars_idem (l : List Char) :
    jsTrimChars (jsTrimChars l) = jsTrimChars l := by
  unfold jsTrimChars
  have hpre : ((l.dropWhile isWS).reverse.dropWhile isWS).reverse <+: l.dropWhile isWS := by
    rw [← List.reverse_suffix, List.reverse_reverse]
    exact List.dropWhile_suffix isWS
  have h1 : (((l.dropWhile isWS).reverse.dropWhile isWS).reverse).dropWhile isWS
      = ((l.dropWhile isWS).reverse.dropWhile isWS).reverse := by
    cases hDr : ((l.dropWhile isWS).reverse.dropWhile isWS).reverse with
    | nil => rfl
    | cons h t =>
      obtain ⟨r, hr⟩ := hpre
      rw [hDr] at hr
      have hh : isWS h = false :=
        dropWhile_head_not isWS l h (t ++ r) (by rw [← hr]; simp)
      exact dropWhile_cons_head _ _ _ hh
  rw [h1, List.reverse_reverse, dropWhile_dropWhile]

/-- Helper: trimming is idempotent on strings. -/
theorem jsTrim_idem (s : String) : jsTrim (jsTrim s) = jsTrim s := by
  show (⟨jsTrimChars (⟨jsTrimChars s.data⟩ : String).data⟩ : String) = ⟨jsTrimChars s.data⟩
  exact congrArg String.mk (jsTrimChars_idem s.data)

/-- Embeds `text.split(/\r?\n/)`: split at each LF or CRLF (a lone CR
is not a separator). -/
def splitRN : List Char → List (List Char)
  | [] => [[]]
  | '\r' :: '\n' :: rest => [] :: splitRN rest
  | '\n' :: rest => [] :: splitRN rest
  | c :: rest =>
    match splitRN rest with
    | [] => [[c]]
    | l :: ls => (c :: l) :: ls

/-- The five scaffold prefixes dropped by `stripScaffold`
(`ChatWindow.tsx`). -/
def scaffoldPrefixes : List String :=
  ["Use the uploaded company documents as primary context when answering.",
   "Answer using your general knowledge.",
   "Keep the answer very short",
   "Provide a detailed, step-by-step explanation",
   "Provide a detailed, step-by-step explanation with any important caveats"]

/-- Embeds `dropStartsWith.some((p) => ln.startsWith(p))`. -/
def isScaffoldLine (ln : String) : Bool :=
  scaffoldPrefixes.any (fun p => p.data.isPrefixOf ln.data)

/-- Embeds the line pipeline of `stripScaffold` (`ChatWindow.tsx`):
split on `/\r?\n/`, trim each line, drop empty lines, drop lines
starting with a scaffold prefix. -/
def scaffoldLines (text : String) : List String :=
  ((((splitRN text.data).map (fun l => jsTrim ⟨l⟩)).filter (fun s => s ≠ "")).filter
    (fun ln => !isScaffoldLine ln))

/-- Embeds `filtered.join("\n")`. -/
def joinN : List String → String
  | [] => ""
  | [x] => x
  | x :: xs => x ++ "\n" ++ joinN xs

/-- Embeds `stripScaffold(text)`: the surviving lines rejoined with
single newlines (applied only at render time to user messages; the
stored content is untouched). -/
def stripScaffold (text : String) : String :=
  joinN (scaffoldLines text)

/-- C9: for every displayed user message, the rendered text is the
original split into lines, each line trimmed, empty lines and
scaffold-prefixed lines dropped, and the survivors rejoined with single
newlines; consequently every surviving line is nonempty, free of
leading/trailing whitespace, and not scaffold-prefixed — also for
messages containing no scaffold prefix at all. -/
theorem stripScaffold_spec :
    (∀ text, stripScaffold text = joinN
      ((((splitRN text.data).map (fun l => jsTrim ⟨l⟩)).filter (fun s => s ≠ "")).filter
        (fun ln => !isScaffoldLine ln))) ∧
    (∀ text ln, ln ∈ scaffoldLines text →
      ln ≠ "" ∧ jsTrim ln = ln ∧ isScaffoldLine ln = false) ∧
    stripScaffold
      "Use the uploaded company documents as primary context when answering.\n\nKeep the answer very short (2–3 sentences).\n\n  What is the leave policy?  "
      = "What is the leave policy?" ∧
    stripScaffold "  a \r\n\n b " = "a" ++ "\n" ++ "b" := by
  refine ⟨fun text => rfl, ?_, by decide, by decide⟩
  intro text ln hln
  unfold scaffoldLines at hln
  rw [List.mem_filter] at hln
  obtain ⟨hln1, hp2⟩ := hln
  rw [List.mem_filter] at hln1
  obtain ⟨hln2, hp1⟩ := hln1
  rw [List.mem_map] at hln2
  obtain ⟨l, _, hl⟩ := hln2
  refine ⟨by simpa using hp1, ?_, by simpa using hp2⟩
  rw [← hl]
  exact jsTrim_idem ⟨l⟩

/-- Witness instantiating `stripScaffold_spec` at a concrete message
and a concrete surviving line. -/
theorem stripScaffold_spec_witness :
    ("hello" ≠ "" ∧ jsTrim "hello" = "hello" ∧ isScaffoldLine "hello" = false) ∧
    stripScaffold "  hello \nAnswer using your general knowledge. Do not rely on uploaded company documents.\n world "
      = "hello" ++ "\n" ++ "world" := by
  refine ⟨?_, by decide⟩
  exact stripScaffold_spec.2.1
    "  hello \nAnswer using your general knowledge. Do not rely on uploaded company documents.\n world "
    "hello" (by decide)

/-- Durable auth storage written by `setAuth` (`localStorage` keys
`actor` and `access_token`). -/
structure AuthStorage where
  actor : Option String
  accessToken : Option String
deriving Repr, DecidableEq

/-- The `app-nav` event payload: target path and the replace flag. -/
structure NavRequest where
  target : String
  replacing : Bool
deriving Repr, DecidableEq

/-- Embeds the home-path selection of `setAuth`:
`a === "user" ? "/user" : a === "admin" ? "/admin" : "/superadmin"`. -/
def homePath (actor : String) : String :=
  if actor = "user" then "/user" else if actor = "admin" then "/admin" else "/superadmin"

/-- Embeds `setAuth(actor, token, expiresIn)` (`src/state/auth.tsx`
lines 42-50): persist actor and token to durable storage and emit a
history-replacing `app-nav` request to the home path of the actor (the
refresh-timer scheduling carries no storage or navigation effect). -/
def setAuth (st : AuthStorage) (actor token : String) : AuthStorage × NavRequest :=
  ({ st with actor := some actor, accessToken := some token }, ⟨homePath actor, true⟩)

/-- Embeds the role-commit step of `SignInPage.onSubmit`
(`src/pages/SignInPage.tsx` lines 29-37): the profile `role` is
committed verbatim via `setAuth`; a missing or empty role throws. -/
def signInCommit (st : AuthStorage) (role : Option String) (token : String) :
    Except String (AuthStorage × NavRequest) :=
  match role with
  | none => .error "No role returned from server"
  | some r =>
    if r = "" then .error "No role returned from server"
    else .ok (setAuth st r token)

/-- C10: for every actor string other than `"user"` and `"admin"` —
including `"super_admin"` and any unrecognized role committed verbatim
by the sign-in page — `setAuth` persists the actor and token and emits
a history-replacing navigation to `/superadmin`; only `"user"` and
`"admin"` map to `/user` and `/admin`. -/
theorem setAuth_superadmin_default_spec :
    (∀ st actor token, actor ≠ "user" → actor ≠ "admin" →
      setAuth st actor token =
        ({ st with actor := some actor, accessToken := some token },
         ⟨"/superadmin", true⟩)) ∧
    (∀ st token, setAuth st "user" token =
      ({ st with actor := some "user", accessToken := some token }, ⟨"/user", true⟩)) ∧
    (∀ st token, setAuth st "admin" token =
      ({ st with actor := some "admin", accessToken := some token }, ⟨"/admin", true⟩)) ∧
    (∀ st r token, r ≠ "" →
      signInCommit st (some r) token = .ok (setAuth st r token)) ∧
    setAuth ⟨none, none⟩ "super_admin" "t1" =
      (⟨some "super_admin", some "t1"⟩, ⟨"/superadmin", true⟩) ∧
    setAuth ⟨none, none⟩ "owner" "t2" =
      (⟨some "owner", some "t2"⟩, ⟨"/superadmin", true⟩) := by
  refine ⟨?_, ?_, ?_, ?_, by decide, by decide⟩
  · intro st actor token h1 h2
    simp [setAuth, homePath, h1, h2]
  · intro st token
    simp [setAuth, homePath]
  · intro st token
    simp [setAuth, homePath]
  · intro st r token hr
    simp [signInCommit, hr]

/-- Witness instantiating `setAuth_superadmin_default_spec` at concrete
roles. -/
theorem setAuth_superadmin_default_spec_witness :
    setAuth ⟨none, none⟩ "moderator" "tok" =
      (⟨some "moderator", some "tok"⟩, ⟨"/superadmin", true⟩) ∧
    signInCommit ⟨none, none⟩ (some "super_admin") "tok" =
      .ok (setAuth ⟨none, none⟩ "super_admin" "tok") := by
  refine ⟨?_, ?_⟩
  · exact setAuth_superadmin_default_spec.1 ⟨none, none⟩ "moderator" "tok"
      (by decide) (by decide)
  · exact setAuth_superadmin_default_spec.2.2.2.1 ⟨none, none⟩ "super_admin" "tok" (by decide)
